import Mathlib

/-!
Shallow embedding of the bill-splitter core: the EMV QR payload builder
(grapheme-aware TLV encoding, CRC-16 checksum, bank resolution), the
shared-bill URL codec, the split calculator and the split-configuration
parser, together with theorems checking the specification's claims
against these definitions.
-/

set_option maxRecDepth 20000

deriving instance DecidableEq for Except

namespace BillSplit

/-! ### Grapheme-aware lengths and TLV encoding (`EMVCodeUtil`) -/

/-- Extending code points (Unicode `Grapheme_Extend`-style ranges relevant to
this repository's data): combining diacritical marks and their extension
blocks, the zero-width joiner and variation selectors.  This embeds the
grapheme segmentation the source obtains from `Intl.Segmenter` for text made
of base characters optionally followed by combining marks. -/
def isGraphemeExtend (c : Char) : Bool :=
  (0x0300 ≤ c.toNat && c.toNat ≤ 0x036F) ||
  (0x1AB0 ≤ c.toNat && c.toNat ≤ 0x1AFF) ||
  (0x1DC0 ≤ c.toNat && c.toNat ≤ 0x1DFF) ||
  (0x20D0 ≤ c.toNat && c.toNat ≤ 0x20FF) ||
  (0xFE20 ≤ c.toNat && c.toNat ≤ 0xFE2F) ||
  (0xFE00 ≤ c.toNat && c.toNat ≤ 0xFE0F) ||
  (c.toNat == 0x200D)

/-- Number of grapheme clusters of a string: the first code point always opens
a cluster, and every later code point that is not an extender opens a new one
(source `graphemeLength`). -/
def graphemeLength (s : String) : Nat :=
  match s.data with
  | [] => 0
  | _ :: rest => 1 + (rest.filter (fun d => !isGraphemeExtend d)).length

/-- Decimal rendering of a length, left-padded with one zero to at least two
digits (source `pad2OrMore`). -/
def pad2OrMore (n : Nat) : String :=
  let s := toString n
  if s.length ≥ 2 then s else "0" ++ s

/-- Text of one tag-length-value field: the tag, then the grapheme-cluster
count of the value zero-padded to at least two decimal digits, then the
value. -/
def tlvStr (tag value : String) : String :=
  tag ++ pad2OrMore (graphemeLength value) ++ value

/-- Test of the source's `/^\d{2}$/` tag guard. -/
def isTwoDigitTag (tag : String) : Bool :=
  tag.data.length == 2 && tag.data.all Char.isDigit

/-- Source `tlv`: validates the tag and emits `tag ++ length ++ value`; the
thrown error is modelled with `Except`. -/
def tlv (tag value : String) : Except String String :=
  if isTwoDigitTag tag then .ok (tlvStr tag value)
  else .error ("TLV tag must be 2 digits. Got: " ++ tag)

/-- UTF-8 bytes of one code point. -/
def charUtf8Bytes (c : Char) : List Nat :=
  let n := c.toNat
  if n < 0x80 then [n]
  else if n < 0x800 then [0xC0 + n / 64, 0x80 + n % 64]
  else if n < 0x10000 then [0xE0 + n / 4096, 0x80 + n / 64 % 64, 0x80 + n % 64]
  else [0xF0 + n / 262144, 0x80 + n / 4096 % 64, 0x80 + n / 64 % 64, 0x80 + n % 64]

/-- UTF-8 byte sequence of a string (the JS `TextEncoder` behaviour). -/
def utf8Bytes (s : String) : List Nat :=
  (s.data.map charUtf8Bytes).flatten

/-- UTF-8 byte count of a string. -/
def utf8Length (s : String) : Nat :=
  (utf8Bytes s).length

/-- UTF-16 code-unit count of a string (JS `String.length`). -/
def utf16Length (s : String) : Nat :=
  (s.data.map (fun c => if c.toNat < 0x10000 then 1 else 2)).sum

/-! ### CRC-16/CCITT-FALSE (`crc16CcittFalseHexLower`) -/

/-- One shift-XOR round of the source CRC loop body: the register is tested
on bit 15 before the shift, XORed with the polynomial when it was set, and
masked back to sixteen bits. -/
def crcRound (c : Nat) : Nat :=
  (if c &&& 0x8000 ≠ 0 then (c <<< 1) ^^^ 0x1021 else c <<< 1) &&& 0xFFFF

/-- Processing of one input byte: XOR it into the high byte of the register,
then run eight rounds. -/
def crcByte (crc b : Nat) : Nat :=
  Nat.repeat crcRound 8 (crc ^^^ (b <<< 8))

/-- Register value of the source CRC over a byte sequence, initial register
0xFFFF. -/
def crc16 (bytes : List Nat) : Nat :=
  bytes.foldl crcByte 0xFFFF

/-- Lowercase hexadecimal digit characters, as produced by JS
`toString(16)`. -/
def hexDigitChar (n : Nat) : Char :=
  "0123456789abcdef".data.getD n '0'

/-- Fuel-driven digit extraction, so that evaluation stays definitional. -/
def natToHexAux : Nat → Nat → List Char
  | 0, _ => []
  | fuel + 1, n =>
    if n < 16 then [hexDigitChar n]
    else natToHexAux fuel (n / 16) ++ [hexDigitChar (n % 16)]

/-- Hexadecimal digit list of a number, most significant digit first (JS
`toString(16)`, which is already lowercase). -/
def natToHex (n : Nat) : List Char :=
  natToHexAux (n + 1) n

/-- JS `padStart(4, '0')` on a character list. -/
def padStart4 (l : List Char) : List Char :=
  List.replicate (4 - l.length) '0' ++ l

/-- Source `crc16CcittFalseHexLower`: the CRC register computed over the UTF-8
bytes of the payload, rendered as four-zero-padded lowercase hexadecimal. -/
def crc16CcittFalseHexLower (payloadAscii : String) : String :=
  String.mk (padStart4 (natToHex (crc16 (utf8Bytes payloadAscii))))

/-- Reference round, worded from the specification of CRC-16/CCITT-FALSE:
shift the register left by one, and when the bit shifted out of the sixteen
bit register is set XOR with the polynomial 0x1021, reducing modulo 2^16. -/
def crcRoundRef (c : Nat) : Nat :=
  (if (c <<< 1).testBit 16 then (c <<< 1) ^^^ 0x1021 else (c <<< 1)) % 65536

/-- Reference per-byte step: XOR the byte into the high byte of the register,
then run eight reference rounds. -/
def crcByteRef (crc b : Nat) : Nat :=
  Nat.repeat crcRoundRef 8 (crc ^^^ (b <<< 8))

/-- CRC-16/CCITT-FALSE reference register: initial value 0xFFFF, polynomial
0x1021, each byte processed most-significant-bit first. -/
def crc16Ref (bytes : List Nat) : Nat :=
  bytes.foldl crcByteRef 0xFFFF



/-! ### Bank directory (`resolveBankBin`) -/

/-- Bank record of the hard-coded directory. -/
structure Bank where
  code : String
  shortName : String
  name : String
  bin : String
deriving DecidableEq, Repr

/-- Hard-coded bank directory, copied verbatim from the source table. -/
def BANKS : List Bank := [
  ⟨"ICB", "VietinBank", "Ngân hàng TMCP Công thương Việt Nam", "970415"⟩,
  ⟨"VCB", "Vietcombank", "Ngân hàng TMCP Ngoại Thương Việt Nam", "970436"⟩,
  ⟨"BIDV", "BIDV", "Ngân hàng TMCP Đầu tư và Phát triển Việt Nam", "970418"⟩,
  ⟨"VBA", "Agribank", "Ngân hàng Nông nghiệp và Phát triển Nông thôn Việt Nam", "970405"⟩,
  ⟨"OCB", "OCB", "Ngân hàng TMCP Phương Đông", "970448"⟩,
  ⟨"MB", "MBBank", "Ngân hàng TMCP Quân đội", "970422"⟩,
  ⟨"TCB", "Techcombank", "Ngân hàng TMCP Kỹ thương Việt Nam", "970407"⟩,
  ⟨"ACB", "ACB", "Ngân hàng TMCP Á Châu", "970416"⟩,
  ⟨"VPB", "VPBank", "Ngân hàng TMCP Việt Nam Thịnh Vượng", "970432"⟩,
  ⟨"TPB", "TPBank", "Ngân hàng TMCP Tiên Phong", "970423"⟩,
  ⟨"STB", "Sacombank", "Ngân hàng TMCP Sài Gòn Thương Tín", "970403"⟩,
  ⟨"HDB", "HDBank", "Ngân hàng TMCP Phát triển Thành phố Hồ Chí Minh", "970437"⟩,
  ⟨"VCCB", "VietCapitalBank", "Ngân hàng TMCP Bản Việt", "970454"⟩,
  ⟨"SCB", "SCB", "Ngân hàng TMCP Sài Gòn", "970429"⟩,
  ⟨"VIB", "VIB", "Ngân hàng TMCP Quốc tế Việt Nam", "970441"⟩,
  ⟨"SHB", "SHB", "Ngân hàng TMCP Sài Gòn - Hà Nội", "970443"⟩,
  ⟨"EIB", "Eximbank", "Ngân hàng TMCP Xuất Nhập khẩu Việt Nam", "970431"⟩,
  ⟨"MSB", "MSB", "Ngân hàng TMCP Hàng Hải Việt Nam", "970426"⟩,
  ⟨"CAKE", "CAKE", "TMCP Việt Nam Thịnh Vượng - Ngân hàng số CAKE by VPBank", "546034"⟩,
  ⟨"Ubank", "Ubank", "TMCP Việt Nam Thịnh Vượng - Ngân hàng số Ubank by VPBank", "546035"⟩,
  ⟨"VTLMONEY", "ViettelMoney", "Tổng Công ty Dịch vụ số Viettel - Chi nhánh tập đoàn công nghiệp viễn thông Quân Đội", "971005"⟩,
  ⟨"TIMO", "Timo", "Ngân hàng số Timo by Ban Viet Bank (Timo by Ban Viet Bank)", "963388"⟩,
  ⟨"VNPTMONEY", "VNPTMoney", "VNPT Money", "971011"⟩,
  ⟨"SGICB", "SaigonBank", "Ngân hàng TMCP Sài Gòn Công Thương", "970400"⟩,
  ⟨"BAB", "BacABank", "Ngân hàng TMCP Bắc Á", "970409"⟩,
  ⟨"momo", "MoMo", "CTCP Dịch Vụ Di Động Trực Tuyến", "971025"⟩,
  ⟨"PVDB", "PVcomBank Pay", "Ngân hàng TMCP Đại Chúng Việt Nam Ngân hàng số", "971133"⟩,
  ⟨"PVCB", "PVcomBank", "Ngân hàng TMCP Đại Chúng Việt Nam", "970412"⟩,
  ⟨"MBV", "MBV", "Ngân hàng TNHH MTV Việt Nam Hiện Đại", "970414"⟩,
  ⟨"NCB", "NCB", "Ngân hàng TMCP Quốc Dân", "970419"⟩,
  ⟨"SHBVN", "ShinhanBank", "Ngân hàng TNHH MTV Shinhan Việt Nam", "970424"⟩,
  ⟨"ABB", "ABBANK", "Ngân hàng TMCP An Bình", "970425"⟩,
  ⟨"VAB", "VietABank", "Ngân hàng TMCP Việt Á", "970427"⟩,
  ⟨"NAB", "NamABank", "Ngân hàng TMCP Nam Á", "970428"⟩,
  ⟨"PGB", "PGBank", "Ngân hàng TMCP Thịnh vượng và Phát triển", "970430"⟩,
  ⟨"VIETBANK", "VietBank", "Ngân hàng TMCP Việt Nam Thương Tín", "970433"⟩,
  ⟨"BVB", "BaoVietBank", "Ngân hàng TMCP Bảo Việt", "970438"⟩,
  ⟨"SEAB", "SeABank", "Ngân hàng TMCP Đông Nam Á", "970440"⟩,
  ⟨"COOPBANK", "COOPBANK", "Ngân hàng Hợp tác xã Việt Nam", "970446"⟩,
  ⟨"LPB", "LPBank", "Ngân hàng TMCP Lộc Phát Việt Nam", "970449"⟩,
  ⟨"KLB", "KienLongBank", "Ngân hàng TMCP Kiên Long", "970452"⟩,
  ⟨"KBank", "KBank", "Ngân hàng Đại chúng TNHH Kasikornbank", "668888"⟩,
  ⟨"MAFC", "MAFC", "Công ty Tài chính TNHH MTV Mirae Asset (Việt Nam)", "977777"⟩,
  ⟨"HLBVN", "HongLeong", "Ngân hàng TNHH MTV Hong Leong Việt Nam", "970442"⟩,
  ⟨"KEBHANAHN", "KEBHANAHN", "Ngân hàng KEB Hana – Chi nhánh Hà Nội", "970467"⟩,
  ⟨"KEBHANAHCM", "KEBHanaHCM", "Ngân hàng KEB Hana – Chi nhánh Thành phố Hồ Chí Minh", "970466"⟩,
  ⟨"CITIBANK", "Citibank", "Ngân hàng Citibank, N.A. - Chi nhánh Hà Nội", "533948"⟩,
  ⟨"CBB", "CBBank", "Ngân hàng Thương mại TNHH MTV Xây dựng Việt Nam", "970444"⟩,
  ⟨"CIMB", "CIMB", "Ngân hàng TNHH MTV CIMB Việt Nam", "422589"⟩,
  ⟨"DBS", "DBSBank", "DBS Bank Ltd - Chi nhánh Thành phố Hồ Chí Minh", "796500"⟩,
  ⟨"Vikki", "Vikki", "Ngân hàng TNHH MTV Số Vikki", "970406"⟩,
  ⟨"VBSP", "VBSP", "Ngân hàng Chính sách Xã hội", "999888"⟩,
  ⟨"GPB", "GPBank", "Ngân hàng Thương mại TNHH MTV Dầu Khí Toàn Cầu", "970408"⟩,
  ⟨"KBHCM", "KookminHCM", "Ngân hàng Kookmin - Chi nhánh Thành phố Hồ Chí Minh", "970463"⟩,
  ⟨"KBHN", "KookminHN", "Ngân hàng Kookmin - Chi nhánh Hà Nội", "970462"⟩,
  ⟨"WVN", "Woori", "Ngân hàng TNHH MTV Woori Việt Nam", "970457"⟩,
  ⟨"VRB", "VRB", "Ngân hàng Liên doanh Việt - Nga", "970421"⟩,
  ⟨"HSBC", "HSBC", "Ngân hàng TNHH MTV HSBC (Việt Nam)", "458761"⟩,
  ⟨"IBK - HN", "IBKHN", "Ngân hàng Công nghiệp Hàn Quốc - Chi nhánh Hà Nội", "970455"⟩,
  ⟨"IBK - HCM", "IBKHCM", "Ngân hàng Công nghiệp Hàn Quốc - Chi nhánh TP. Hồ Chí Minh", "970456"⟩,
  ⟨"IVB", "IndovinaBank", "Ngân hàng TNHH Indovina", "970434"⟩,
  ⟨"UOB", "UnitedOverseas", "Ngân hàng United Overseas - Chi nhánh TP. Hồ Chí Minh", "970458"⟩,
  ⟨"NHB HN", "Nonghyup", "Ngân hàng Nonghyup - Chi nhánh Hà Nội", "801011"⟩,
  ⟨"SCVN", "StandardChartered", "Ngân hàng TNHH MTV Standard Chartered Bank Việt Nam", "970410"⟩,
  ⟨"PBVN", "PublicBank", "Ngân hàng TNHH MTV Public Việt Nam", "970439"⟩
]

/-- White space in the JS `trim` sense: WhiteSpace code points and line
terminators. -/
def isJsSpace (c : Char) : Bool :=
  c == ' ' || c == '\t' || c == '\n' || c == '\r' ||
  c.toNat == 0x0B || c.toNat == 0x0C || c.toNat == 0xA0 || c.toNat == 0xFEFF ||
  c.toNat == 0x1680 || (0x2000 ≤ c.toNat && c.toNat ≤ 0x200A) ||
  c.toNat == 0x2028 || c.toNat == 0x2029 ||
  c.toNat == 0x202F || c.toNat == 0x205F || c.toNat == 0x3000

/-- JS `String.prototype.trim`: drop leading and trailing white space. -/
def jsTrim (s : String) : String :=
  String.mk (((s.data.dropWhile isJsSpace).reverse.dropWhile isJsSpace).reverse)

/-- JS `toLowerCase` on one code point, for ASCII, Latin-1 letters and the
Latin Extended ranges used by the directory (simple case mapping). -/
def jsToLower (c : Char) : Char :=
  let n := c.toNat
  if 0x41 ≤ n && n ≤ 0x5A then Char.ofNat (n + 32)
  else if 0xC0 ≤ n && n ≤ 0xDE && n ≠ 0xD7 then Char.ofNat (n + 32)
  else if ((0x0100 ≤ n && n ≤ 0x0137) || (0x014A ≤ n && n ≤ 0x0177)) && n % 2 == 0 then
    Char.ofNat (n + 1)
  else if 0x0139 ≤ n && n ≤ 0x0148 && n % 2 == 1 then Char.ofNat (n + 1)
  else if 0x0179 ≤ n && n ≤ 0x017E && n % 2 == 1 then Char.ofNat (n + 1)
  else if n == 0x01A0 || n == 0x01AF then Char.ofNat (n + 1)
  else if 0x1E00 ≤ n && n ≤ 0x1EFF && n % 2 == 0 then Char.ofNat (n + 1)
  else c

/-- Canonical decomposition (JS `normalize('NFD')`) of one code point, for the
Latin letters with diacritics that occur in this repository's data; code
points without a decomposition are returned unchanged. -/
def nfdChar : Char → List Char
  | 'à' => ['a', '\u0300']
  | 'á' => ['a', '\u0301']
  | 'â' => ['a', '\u0302']
  | 'ã' => ['a', '\u0303']
  | 'è' => ['e', '\u0300']
  | 'é' => ['e', '\u0301']
  | 'ê' => ['e', '\u0302']
  | 'ì' => ['i', '\u0300']
  | 'í' => ['i', '\u0301']
  | 'ò' => ['o', '\u0300']
  | 'ó' => ['o', '\u0301']
  | 'ô' => ['o', '\u0302']
  | 'õ' => ['o', '\u0303']
  | 'ù' => ['u', '\u0300']
  | 'ú' => ['u', '\u0301']
  | 'ý' => ['y', '\u0301']
  | 'ă' => ['a', '\u0306']
  | 'ĩ' => ['i', '\u0303']
  | 'ũ' => ['u', '\u0303']
  | 'ơ' => ['o', '\u031B']
  | 'ư' => ['u', '\u031B']
  | 'ạ' => ['a', '\u0323']
  | 'ả' => ['a', '\u0309']
  | 'ấ' => ['a', '\u0302', '\u0301']
  | 'ầ' => ['a', '\u0302', '\u0300']
  | 'ẩ' => ['a', '\u0302', '\u0309']
  | 'ẫ' => ['a', '\u0302', '\u0303']
  | 'ậ' => ['a', '\u0323', '\u0302']
  | 'ắ' => ['a', '\u0306', '\u0301']
  | 'ằ' => ['a', '\u0306', '\u0300']
  | 'ẳ' => ['a', '\u0306', '\u0309']
  | 'ẵ' => ['a', '\u0306', '\u0303']
  | 'ặ' => ['a', '\u0323', '\u0306']
  | 'ẹ' => ['e', '\u0323']
  | 'ẻ' => ['e', '\u0309']
  | 'ẽ' => ['e', '\u0303']
  | 'ế' => ['e', '\u0302', '\u0301']
  | 'ề' => ['e', '\u0302', '\u0300']
  | 'ể' => ['e', '\u0302', '\u0309']
  | 'ễ' => ['e', '\u0302', '\u0303']
  | 'ệ' => ['e', '\u0323', '\u0302']
  | 'ỉ' => ['i', '\u0309']
  | 'ị' => ['i', '\u0323']
  | 'ọ' => ['o', '\u0323']
  | 'ỏ' => ['o', '\u0309']
  | 'ố' => ['o', '\u0302', '\u0301']
  | 'ồ' => ['o', '\u0302', '\u0300']
  | 'ổ' => ['o', '\u0302', '\u0309']
  | 'ỗ' => ['o', '\u0302', '\u0303']
  | 'ộ' => ['o', '\u0323', '\u0302']
  | 'ớ' => ['o', '\u031B', '\u0301']
  | 'ờ' => ['o', '\u031B', '\u0300']
  | 'ở' => ['o', '\u031B', '\u0309']
  | 'ỡ' => ['o', '\u031B', '\u0303']
  | 'ợ' => ['o', '\u031B', '\u0323']
  | 'ụ' => ['u', '\u0323']
  | 'ủ' => ['u', '\u0309']
  | 'ứ' => ['u', '\u031B', '\u0301']
  | 'ừ' => ['u', '\u031B', '\u0300']
  | 'ử' => ['u', '\u031B', '\u0309']
  | 'ữ' => ['u', '\u031B', '\u0303']
  | 'ự' => ['u', '\u031B', '\u0323']
  | 'ỳ' => ['y', '\u0300']
  | 'ỵ' => ['y', '\u0323']
  | 'ỷ' => ['y', '\u0309']
  | 'ỹ' => ['y', '\u0303']
  | c => [c]

/-- Removal of the combining marks matched by the source's
`/[\u0300-\u036f]/g` replacement. -/
def stripMarks (l : List Char) : List Char :=
  l.filter (fun c => !(0x0300 ≤ c.toNat && c.toNat ≤ 0x036F))

/-- Characters kept verbatim by the source's `/[^a-z0-9]+/g` collapse. -/
def isKeyChar (c : Char) : Bool :=
  (0x61 ≤ c.toNat && c.toNat ≤ 0x7A) || (0x30 ≤ c.toNat && c.toNat ≤ 0x39)

/-- Replacement of every maximal run of non-alphanumeric characters by one
space, as the source's final `replace(/[^a-z0-9]+/g, ' ')` does; the flag
records whether the previous character was part of such a run. -/
def collapseAux : Bool → List Char → List Char
  | _, [] => []
  | inRun, c :: rest =>
    if isKeyChar c then c :: collapseAux false rest
    else if inRun then collapseAux true rest
    else ' ' :: collapseAux true rest

/-- Source `normalizeBankKey`: trim, lowercase, canonical decomposition,
removal of combining marks, and collapapse of non-alphanumeric runs into
single spaces.  The trim happens first, so the collapse can leave a leading
or trailing space. -/
def normalizeBankKey (s : String) : String :=
  String.mk (collapseAux false (stripMarks (((jsTrim s).data.map jsToLower).map nfdChar).flatten))

/-- JS `String.prototype.startsWith`-style check on character lists. -/
def leadsWith : List Char → List Char → Bool
  | [], _ => true
  | _ :: _, [] => false
  | a :: as, b :: bs => a == b && leadsWith as bs

/-- JS `String.prototype.includes`: some suffix of the haystack starts with
the needle. -/
def hasSub (hay needle : String) : Bool :=
  hay.data.tails.any (fun t => leadsWith needle.data t)

/-- Error text thrown by the source resolver. -/
def unknownBankMessage (s : String) : String :=
  "Unknown bank: \"" ++ s ++ "\". You must map bank name/code to a Bank BIN (e.g., Vietcombank=970436)."

/-- Source `resolveBankBin`: first exact normalized match on the code, then on
the short name, then on the legal name, then the first record whose
normalized legal or short name contains the normalized query; otherwise the
unknown-bank error. -/
def resolveBankBin (userBankInput : String) : Except String Bank :=
  let key := normalizeBankKey userBankInput
  let found :=
    (((BANKS.find? (fun b => normalizeBankKey b.code == key)).orElse
      (fun _ => BANKS.find? (fun b => normalizeBankKey b.shortName == key))).orElse
      (fun _ => BANKS.find? (fun b => normalizeBankKey b.name == key))).orElse
      (fun _ => BANKS.find? (fun b =>
        hasSub (normalizeBankKey b.name) key || hasSub (normalizeBankKey b.shortName) key))
  match found with
  | some b => .ok b
  | none => .error (unknownBankMessage userBankInput)

/-! ### Payload builder (`generateQrEmvPayload`) -/

/-- Input of the payload generator.  The `amount` field holds
`String(input.amount)`, the stringified amount exactly as the caller
supplied it (the JS union `number | string` is stringified unchanged by the
builder). -/
structure BankInput where
  bank : String
  accountNumber : String
  amount : String
  note : Option String := none
  countryCode : Option String := none

/-- Test of the source's `/^\d{6}$/` bank-identifier guard. -/
def isSixDigitBin (s : String) : Bool :=
  s.data.length == 6 && s.data.all Char.isDigit

/-- Test of the source's `/^[0-9]+$/` digit guard. -/
def isAllDigits (s : String) : Bool :=
  s.data.all Char.isDigit

/-- Source `buildQrReceiveAccount`: validates the bank identifier and the
trimmed account number, then nests the beneficiary TLV block under the fixed
GUID `A000000727`. -/
def buildQrReceiveAccount (bankBin accountNumber : String) : Except String String := do
  if !isSixDigitBin bankBin then
    throw ("bankBin must be 6 digits (e.g., \"970436\"). Got: " ++ bankBin)
  let acct := jsTrim accountNumber
  if acct.data.isEmpty || !isAllDigits acct then
    throw ("accountNumber must be numeric. Got: " ++ accountNumber)
  let beneficiary := (← tlv "00" bankBin) ++ (← tlv "01" acct) ++ (← tlv "02" "QRIBFTTA")
  return (← tlv "00" "A000000727") ++ (← tlv "01" beneficiary)

/-- Source `generateQrEmvPayload`: resolve the bank, build the merchant
account block, emit the fixed tag sequence, then append `6304` and the
checksum of everything before it including that `6304`. -/
def generateQrEmvPayload (input : BankInput) : Except String (String × Bank) := do
  let bank ← resolveBankBin input.bank
  let merchantAccount ← buildQrReceiveAccount bank.bin input.accountNumber
  let amountStr := input.amount
  let countryCode := input.countryCode.getD "VN"
  let additionalData := input.note.getD ""
  let encodedAdditionalData ← tlv "08" additionalData
  let t00 ← tlv "00" "01"
  let t01 ← tlv "01" "12"
  let t38 ← tlv "38" merchantAccount
  let t53 ← tlv "53" "704"
  let t54 ← tlv "54" amountStr
  let t58 ← tlv "58" countryCode
  let t62 ← tlv "62" encodedAdditionalData
  let payloadWithoutCrc := t00 ++ t01 ++ t38 ++ t53 ++ t54 ++ t58 ++ t62
  let crcInput := payloadWithoutCrc ++ "6304"
  let crc := crc16CcittFalseHexLower crcInput
  return (crcInput ++ crc, bank)

/-! ### Shared-bill URL codec (`codec.ts`) -/

/-- Bill line item. -/
structure BillItem where
  id : String
  name : String
  qty : Nat
  unitPrice : Nat
deriving DecidableEq, Repr

/-- Optional extras of a bill; each key may be absent. -/
structure BillExtras where
  tax : Option Nat
  tip : Option Nat
  discount : Option Nat
deriving DecidableEq, Repr

/-- Owner of a shared bill. -/
structure BillOwner where
  bank : String
  accountNumber : String
deriving DecidableEq, Repr

/-- Logical shared-bill payload (`SharedBillPayload` of `types.ts`); the
schema-version field is a number so that unsupported versions can be
expressed. -/
structure SharedBillPayload where
  v : Nat
  billName : String
  countryCode : String
  currencyNumeric : String
  owner : BillOwner
  items : List BillItem
  extras : Option BillExtras
deriving DecidableEq, Repr

/-- Fixed-position tuple form of the payload (schema version 1). -/
structure PackedPayload where
  v : Nat
  billName : String
  countryCode : String
  currencyNumeric : Nat
  owner : String × String
  items : List (String × String × Nat × Nat)
  extras : Option (Option Nat × Option Nat × Option Nat)
deriving DecidableEq, Repr

/-- JS `Number(...)` restricted to the non-negative decimal strings this
codec feeds it (the currency code `"704"`). -/
def jsStringToNumber (s : String) : Nat :=
  s.data.foldl (fun acc c => acc * 10 + (c.toNat - 48)) 0

/-- Source `pack`: re-shape the payload into the fixed-position tuple. -/
def pack (o : SharedBillPayload) : PackedPayload where
  v := o.v
  billName := o.billName
  countryCode := o.countryCode
  currencyNumeric := jsStringToNumber o.currencyNumeric
  owner := (o.owner.bank, o.owner.accountNumber)
  items := o.items.map (fun i => (i.id, i.name, i.qty, i.unitPrice))
  extras := o.extras.map (fun e => (e.tax, e.tip, e.discount))

/-- Source `unpack`: reject any schema version other than 1, rebuild the
payload, set only the extras keys whose packed value is non-null, and drop
the extras object entirely when it would be empty. -/
def unpack (p : PackedPayload) : Except String SharedBillPayload :=
  if p.v ≠ 1 then .error ("Unsupported schema version: " ++ toString p.v)
  else .ok
    { v := 1
      billName := p.billName
      countryCode := p.countryCode
      currencyNumeric := toString p.currencyNumeric
      owner := { bank := p.owner.1, accountNumber := p.owner.2 }
      items := p.items.map (fun x =>
        { id := x.1, name := x.2.1, qty := x.2.2.1, unitPrice := x.2.2.2 })
      extras :=
        match p.extras with
        | none => none
        | some (t, ti, d) =>
          if t = none ∧ ti = none ∧ d = none then none
          else some { tax := t, tip := ti, discount := d } }

/-- Standard base64 alphabet, as used by `btoa` and `atob`. -/
def b64Alphabet : List Char :=
  "ABCDEFGHIJKLMNOPQRSTUVWXYZabcdefghijklmnopqrstuvwxyz0123456789+/".data

/-- Character of one six-bit group. -/
def b64Char (i : Nat) : Char :=
  b64Alphabet.getD i 'A'

/-- Index of a base64 character; `none` for characters outside the alphabet,
on which `atob` throws. -/
def b64Index (c : Char) : Option Nat :=
  let i := b64Alphabet.indexOf c
  if i < 64 then some i else none

/-- Behaviour of `btoa`: each three input bytes become four characters, and a
final one- or two-byte group is completed with `'='` padding. -/
def b64EncodeGroups : List Nat → List Char
  | [] => []
  | [b0] => [b64Char (b0 / 4), b64Char (b0 % 4 * 16), '=', '=']
  | [b0, b1] => [b64Char (b0 / 4), b64Char (b0 % 4 * 16 + b1 / 16), b64Char (b1 % 16 * 4), '=']
  | b0 :: b1 :: b2 :: rest =>
    b64Char (b0 / 4) :: b64Char (b0 % 4 * 16 + b1 / 16) ::
      b64Char (b1 % 16 * 4 + b2 / 64) :: b64Char (b2 % 64) :: b64EncodeGroups rest

/-- Behaviour of `atob`: four characters yield three bytes, trailing `'='`
padding yields a short final group, and a character outside its place makes
the whole decode fail. -/
def b64DecodeGroups : List Char → Option (List Nat)
  | [] => some []
  | c0 :: c1 :: c2 :: c3 :: rest =>
    if c2 == '=' && c3 == '=' && rest.isEmpty then do
      let n0 ← b64Index c0
      let n1 ← b64Index c1
      pure [n0 * 4 + n1 / 16]
    else if c3 == '=' && rest.isEmpty then do
      let n0 ← b64Index c0
      let n1 ← b64Index c1
      let n2 ← b64Index c2
      pure [n0 * 4 + n1 / 16, n1 % 16 * 16 + n2 / 4]
    else do
      let n0 ← b64Index c0
      let n1 ← b64Index c1
      let n2 ← b64Index c2
      let n3 ← b64Index c3
      let tail ← b64DecodeGroups rest
      pure ((n0 * 4 + n1 / 16) :: (n1 % 16 * 16 + n2 / 4) :: (n2 % 4 * 64 + n3) :: tail)
  | _ => none

/-- URL-safe character substitution of the source encoder. -/
def subUrl (c : Char) : Char :=
  if c == '+' then '-' else if c == '/' then '_' else c

/-- Inverse substitution of the source decoder. -/
def unsubUrl (c : Char) : Char :=
  if c == '-' then '+' else if c == '_' then '/' else c

/-- Removal of the trailing `'='` padding (`replace(/=+$/, '')`). -/
def stripTrailingEq (l : List Char) : List Char :=
  (l.reverse.dropWhile (fun c => c == '=')).reverse

/-- Source `base64urlEncode`: `btoa` over the byte string, `+` and `/`
replaced by `-` and `_`, trailing padding stripped. -/
def base64urlEncode (data : List Nat) : String :=
  String.mk (stripTrailingEq ((b64EncodeGroups data).map subUrl))

/-- Source `base64urlDecode`: the inverse substitution, re-padding with `'='`
to a multiple of four, then `atob`. -/
def base64urlDecode (str : String) : Option (List Nat) :=
  let s := str.data.map unsubUrl
  b64DecodeGroups (s ++ List.replicate ((4 - s.length % 4) % 4) '=')

/-- Source `encodeForUrl`, parameterised by the external MessagePack plus
deflate serializer (`menc` stands for `deflateSync ∘ msgpackEncode`). -/
def encodeForUrlWith (menc : PackedPayload → List Nat) (payload : SharedBillPayload) : String :=
  base64urlEncode (menc (pack payload))

/-- Source `decodeFromUrl`, parameterised by the external inflate plus
MessagePack deserializer (`mdec` stands for `msgpackDecode ∘ inflateSync`,
returning `none` where those libraries throw on corrupt bytes). -/
def decodeFromUrlWith (mdec : List Nat → Option PackedPayload) (token : String) :
    Except String SharedBillPayload :=
  match base64urlDecode token with
  | none => .error "InvalidCharacterError"
  | some compressed =>
    match mdec compressed with
    | none => .error "CorruptTokenError"
    | some packed => unpack packed

/-! ### Split calculator (`split.ts`) -/

/-- Split mode. -/
inductive SplitMode where
  | individual
  | even
deriving DecidableEq, Repr

/-- Split configuration: ordered payers and an optional item-to-payers
assignment record (modelled as a key-value list). -/
structure SplitConfig where
  mode : SplitMode
  payers : List String
  assignments : Option (List (String × List String)) := none
deriving DecidableEq, Repr

/-- Bill shape consumed by the split calculator. -/
structure SharedBill where
  items : List BillItem
  extras : Option BillExtras := none
deriving DecidableEq, Repr

/-- Source `computeItemsSubtotal`: sum over the items of quantity times unit
price, 0 for a null bill. -/
def computeItemsSubtotal (shared : Option SharedBill) : Int :=
  match shared with
  | none => 0
  | some s => s.items.foldl (fun acc it => acc + (it.qty : Int) * (it.unitPrice : Int)) 0

/-- Source `computeExtrasNet`: tax plus tip minus discount, missing keys as
0; may be negative. -/
def computeExtrasNet (shared : Option SharedBill) : Int :=
  match shared with
  | none => 0
  | some s =>
    match s.extras with
    | none => 0
    | some e => ((e.tax.getD 0 : Nat) : Int) + ((e.tip.getD 0 : Nat) : Int)
        - ((e.discount.getD 0 : Nat) : Int)

/-- Loop shared by the even-distribution loops of the source: each payer in
order receives the base share plus one unit while the remainder counter is
still positive, the counter being decremented at every step. -/
def splitGo (base : Int) : Int → List String → List (String × Int)
  | _, [] => []
  | rem, p :: ps => (p, base + if 0 < rem then 1 else 0) :: splitGo base (rem - 1) ps

/-- Source `splitEvenly`: floor division of the line total by the payer count
(at least 1), the remainder distributed one unit at a time from the first
payer on. -/
def splitEvenly (lineTotal : Int) (payers : List String) : List (String × Int) :=
  let k : Int := max 1 payers.length
  let base := Int.fdiv lineTotal k
  splitGo base (lineTotal - base * k) payers

/-- Fallback assignee list of the source: the first payer when there is one
and its name is truthy, else nobody. -/
def fallbackAssignees (payers : List String) : List String :=
  match payers with
  | [] => []
  | p0 :: _ => if p0 == "" then [] else [p0]

/-- Assignee resolution for one item in individual mode, from the source of
`computePayerSubtotals`: a present non-empty explicit assignment list,
filtered down to payers that still exist; any empty outcome falls back to
the first payer. -/
def resolvedAssignees (config : SplitConfig) (itemId : String) : List String :=
  let assignedRaw :=
    match config.assignments.bind (fun a => a.lookup itemId) with
    | some l => if l.length > 0 then l else fallbackAssignees config.payers
    | none => fallbackAssignees config.payers
  let assigned := assignedRaw.filter (fun p => config.payers.contains p)
  if assigned.length > 0 then assigned else fallbackAssignees config.payers

/-- Per-payer subtotal in individual mode as a function, accumulated over the
items exactly as the source loop does (shares of one item are read back by
key). -/
def subtotalFunIndividual (items : List BillItem) (config : SplitConfig) : String → Int :=
  items.foldl
    (fun acc it =>
      let shares := splitEvenly ((it.qty : Int) * (it.unitPrice : Int))
        (resolvedAssignees config it.id)
      fun p => acc p + ((shares.lookup p).getD 0))
    (fun _ => 0)

/-- Source `computePayerSubtotals`, as the record's key-value list; its keys
are the configured payers in display order. -/
def computePayerSubtotals (shared : Option SharedBill) (config : SplitConfig) :
    List (String × Int) :=
  match shared with
  | none => config.payers.map (fun p => (p, 0))
  | some s =>
    match config.mode with
    | .individual => config.payers.map (fun p => (p, subtotalFunIndividual s.items config p))
    | .even =>
      let subtotal := computeItemsSubtotal (some s)
      let count : Int := max 1 config.payers.length
      let base := Int.fdiv subtotal count
      splitGo base (subtotal - base * count) config.payers

/-- JS `Math.round` applied to the exact rational `num / den` with a positive
denominator: the floor of `num / den + 1 / 2`, so halves round toward
positive infinity.  The source computes the proportional extras share with
double-precision floats; the quotient is modelled exactly. -/
def jsRoundRat (num den : Int) : Int :=
  Int.fdiv (2 * num + den) (2 * den)

/-- Source `computePayerTotals`: with no payers an empty record; with a zero
items subtotal an even split of the extras; otherwise each payer's subtotal
plus its rounded proportional extras share floored at 0 (the source's final
`Math.round` is the identity on these integer values), with the signed
difference against the grand total added to the first payer. -/
def computePayerTotals (shared : Option SharedBill) (config : SplitConfig) :
    List (String × Int) :=
  let subtotals := computePayerSubtotals shared config
  let subFun := fun p => (subtotals.lookup p).getD 0
  let itemsSubtotal := computeItemsSubtotal shared
  let extrasNet := computeExtrasNet shared
  match config.payers with
  | [] => []
  | p0 :: rest =>
    if itemsSubtotal = 0 then
      let count : Int := max 1 (p0 :: rest).length
      let base := Int.fdiv extrasNet count
      splitGo base (extrasNet - base * count) (p0 :: rest)
    else
      let prelim := fun p =>
        let sub := subFun p
        let extrasShare := jsRoundRat (sub * extrasNet) itemsSubtotal
        if 0 ≤ sub + extrasShare then sub + extrasShare else 0
      let sumTotals := ((p0 :: rest).map prelim).sum
      let diff := itemsSubtotal + extrasNet - sumTotals
      (p0, prelim p0 + diff) :: rest.map (fun p => (p, prelim p))

/-! ### Split-configuration parsing (`config.ts`) -/

/-- JSON-like JS value, as produced by `JSON.parse` (object field lists are
key-unique and in insertion order). -/
inductive Json where
  | null
  | bool (b : Bool)
  | num (n : Int)
  | str (s : String)
  | arr (elems : List Json)
  | obj (fields : List (String × Json))

/-- Falsiness of a JS value (the `!obj` test). -/
def jsFalsy : Json → Bool
  | .null => true
  | .bool b => !b
  | .num n => n == 0
  | .str s => s == ""
  | _ => false

/-- JS `typeof v === 'object'`, true also of arrays and of null. -/
def jsIsObjectType : Json → Bool
  | .null => true
  | .arr _ => true
  | .obj _ => true
  | _ => false

/-- Property access `v[key]` for the non-numeric keys this parser reads;
`none` models `undefined`. -/
def getField (v : Json) (key : String) : Option Json :=
  match v with
  | .obj fields => fields.lookup key
  | _ => none

/-- JS `Object.entries`. -/
def jsEntries : Json → List (String × Json)
  | .obj fields => fields
  | .arr elems => elems.enum.map (fun ie => (toString ie.1, ie.2))
  | _ => []

/-- Filter of the source keeping only entries that are strings and are
non-blank after trimming. -/
def keptStrings (elems : List Json) : List String :=
  elems.filterMap (fun v =>
    match v with
    | .str s => if (jsTrim s).data.isEmpty then none else some s
    | _ => none)

/-- Source `safeParseConfig`, parameterised by the external LZ-string
decompressor and by `JSON.parse` (for each, `none` models `null` or a thrown
error).  Every failure of the chain degrades to `none`; a decoded object is
sanitized field by field. -/
def safeParseConfig (decompress : String → Option String)
    (parseJson : String → Option Json) (encoded : Option String) : Option SplitConfig :=
  match encoded with
  | none => none
  | some s =>
    if s == "" then none
    else
      match decompress s with
      | none => none
      | some json =>
        if json == "" then none
        else
          match parseJson json with
          | none => none
          | some obj =>
            if jsFalsy obj || !jsIsObjectType obj then none
            else
              let mode : SplitMode :=
                match getField obj "mode" with
                | some (.str "even") => .even
                | _ => .individual
              let payers : List String :=
                match getField obj "payers" with
                | some (.arr elems) => keptStrings elems
                | _ => []
              let assignments : Option (List (String × List String)) :=
                match getField obj "assignments" with
                | none => none
                | some a =>
                  if !(jsFalsy a) && jsIsObjectType a then
                    some ((jsEntries a).map (fun kv =>
                      (kv.1, match kv.2 with
                        | .arr elems => keptStrings elems
                        | _ => [])))
                  else none
              some { mode := mode, payers := payers, assignments := assignments }

/-! ### Statement vocabulary -/

/-- Lowercase hexadecimal digit test. -/
def isLowerHexDigit (c : Char) : Bool :=
  (('0' ≤ c && c ≤ '9') || ('a' ≤ c && c ≤ 'f'))

/-- Directory record of Vietcombank (its legal name copied byte for byte from
the source, which stores it partially decomposed). -/
def vcbBank : Bank :=
  { code := "VCB", shortName := "Vietcombank",
    name := "Ng\u00E2n ha\u0300ng TMCP Ngoa\u0323i Th\u01B0\u01A1ng Vi\u00EA\u0323t Nam",
    bin := "970436" }

/-- Merchant account block of tag 38, stated as the claim describes it: GUID
under inner tag 00, and the beneficiary template (bank identifier, account,
service code `QRIBFTTA`) under inner tag 01. -/
def qrMerchantBlock (bank : Bank) (acct : String) : String :=
  tlvStr "00" "A000000727" ++
    tlvStr "01" (tlvStr "00" bank.bin ++ tlvStr "01" acct ++ tlvStr "02" "QRIBFTTA")

/-- Concatenation of the top-level tags in the fixed order the claim states:
00 = "01", 01 = "12", 38 = merchant block, 53 = "704", 54 = the amount as
supplied, 58 = the country code as supplied (default "VN"), 62 = one nested
entry of tag 08 with the note text or the empty string. -/
def qrTopFields (input : BankInput) (bank : Bank) : String :=
  tlvStr "00" "01" ++ tlvStr "01" "12" ++
    tlvStr "38" (qrMerchantBlock bank (jsTrim input.accountNumber)) ++
    tlvStr "53" "704" ++ tlvStr "54" input.amount ++
    tlvStr "58" (input.countryCode.getD "VN") ++
    tlvStr "62" (tlvStr "08" (input.note.getD ""))

/-- Whole payload as the claim states it: the top-level tags, the literal
"6304", and the checksum of everything preceding it including that "6304". -/
def qrPayloadText (input : BankInput) (bank : Bank) : String :=
  qrTopFields input bank ++ "6304" ++
    crc16CcittFalseHexLower (qrTopFields input bank ++ "6304")

/-- Preliminary per-payer total before the rounding correction, as the claim
states it: the payer's subtotal plus the rounded proportional extras share,
clamped below at 0. -/
def prelimPayerTotal (shared : Option SharedBill) (config : SplitConfig) (p : String) : Int :=
  let sub := ((computePayerSubtotals shared config).lookup p).getD 0
  let extrasShare := jsRoundRat (sub * computeExtrasNet shared) (computeItemsSubtotal shared)
  if 0 ≤ sub + extrasShare then sub + extrasShare else 0

/-- Signed difference between the grand total and the sum of the preliminary
per-payer totals; it is added in full to the first payer. -/
def roundingDiff (shared : Option SharedBill) (config : SplitConfig) : Int :=
  computeItemsSubtotal shared + computeExtrasNet shared
    - (config.payers.map (prelimPayerTotal shared config)).sum


/-! ### Helper lemmas -/

theorem nat_repeat_congr (f g : Nat → Nat) (h : ∀ x, f x = g x) :
    ∀ (n : Nat) (x : Nat), Nat.repeat f n x = Nat.repeat g n x := by
  intro n
  induction n with
  | zero => intro x; rfl
  | succ k ih => intro x; simp only [Nat.repeat, h, ih]

theorem crcRound_eq_ref (c : Nat) : crcRound c = crcRoundRef c := by
  have h1 : (c <<< 1).testBit 16 = c.testBit 15 := by
    rw [Nat.testBit_shiftLeft]
    norm_num
  have h3 : ∀ x : Nat, x &&& 0xFFFF = x % 65536 := by
    intro x
    have hx := Nat.and_pow_two_sub_one_eq_mod x 16
    norm_num at hx
    exact hx
  have h2 : (c &&& 0x8000 ≠ 0) ↔ c.testBit 15 = true := by
    have hx := Nat.and_two_pow c 15
    norm_num at hx
    rw [hx]
    cases h : c.testBit 15 <;> simp [h]
  unfold crcRound crcRoundRef
  rw [h1]
  by_cases hb : c.testBit 15 = true
  · rw [if_pos (h2.mpr hb), if_pos hb, h3]
  · rw [if_neg (fun hn => hb (h2.mp hn)), if_neg (by simpa using hb), h3]

theorem crcByte_eq_ref (c b : Nat) : crcByte c b = crcByteRef c b :=
  nat_repeat_congr _ _ crcRound_eq_ref 8 _

theorem crc16_eq_ref (bytes : List Nat) : crc16 bytes = crc16Ref bytes := by
  unfold crc16 crc16Ref
  generalize (0xFFFF : Nat) = init
  induction bytes generalizing init with
  | nil => rfl
  | cons b t ih => simp only [List.foldl_cons, crcByte_eq_ref, ih]

theorem crcRound_lt (c : Nat) : crcRound c < 65536 := by
  unfold crcRound
  have h := Nat.and_le_right
    (n := if c &&& 0x8000 ≠ 0 then (c <<< 1) ^^^ 0x1021 else c <<< 1) (m := 0xFFFF)
  omega

theorem crcByte_lt (c b : Nat) : crcByte c b < 65536 := by
  show Nat.repeat crcRound 8 _ < 65536
  simp only [Nat.repeat]
  exact crcRound_lt _

theorem crc16_lt (bytes : List Nat) : crc16 bytes < 65536 := by
  unfold crc16
  have key : ∀ (l : List Nat) (init : Nat), init < 65536 → l.foldl crcByte init < 65536 := by
    intro l
    induction l with
    | nil => intro init h; exact h
    | cons b t ih => intro init _; exact ih _ (crcByte_lt _ _)
  exact key bytes 0xFFFF (by norm_num)

theorem natToHexAux_length : ∀ (fuel n k : Nat), n < fuel → 1 ≤ k → n < 16 ^ k →
    (natToHexAux fuel n).length ≤ k := by
  intro fuel
  induction fuel with
  | zero => intro n k h; omega
  | succ f ih =>
    intro n k hn hk hpow
    unfold natToHexAux
    by_cases h16 : n < 16
    · rw [if_pos h16]
      simpa using hk
    · rw [if_neg h16]
      have hk2 : 2 ≤ k := by
        by_contra hkc
        have hk1 : k = 1 := by omega
        subst hk1
        simp only [pow_one] at hpow
        omega
      have hlt : n / 16 < f := by omega
      have hdiv : n / 16 < 16 ^ (k - 1) := by
        have hpoweq : 16 ^ (k - 1) * 16 = 16 ^ k := by
          rw [← pow_succ]
          congr 1
          omega
        rw [Nat.div_lt_iff_lt_mul (by norm_num)]
        omega
      have hrec := ih (n / 16) (k - 1) hlt (by omega) hdiv
      simp only [List.length_append, List.length_cons, List.length_nil]
      omega

theorem natToHex_length_le (n : Nat) (h : n < 65536) : (natToHex n).length ≤ 4 :=
  natToHexAux_length (n + 1) n 4 (by omega) (by omega) (by norm_num; omega)

theorem hexDigitChar_hex : ∀ m, m < 16 → isLowerHexDigit (hexDigitChar m) = true := by decide

theorem natToHexAux_hex : ∀ (fuel n : Nat), ∀ c ∈ natToHexAux fuel n,
    isLowerHexDigit c = true := by
  intro fuel
  induction fuel with
  | zero => intro n c hc; simp [natToHexAux] at hc
  | succ f ih =>
    intro n c hc
    unfold natToHexAux at hc
    by_cases h16 : n < 16
    · rw [if_pos h16] at hc
      simp only [List.mem_singleton] at hc
      subst hc
      exact hexDigitChar_hex n h16
    · rw [if_neg h16] at hc
      simp only [List.mem_append, List.mem_singleton] at hc
      rcases hc with hc | hc
      · exact ih _ _ hc
      · subst hc
        exact hexDigitChar_hex _ (Nat.mod_lt _ (by norm_num))

theorem utf8Bytes_of_ascii : ∀ (l : List Char), (∀ c ∈ l, c.toNat < 0x80) →
    (l.map charUtf8Bytes).flatten = l.map Char.toNat := by
  intro l
  induction l with
  | nil => intro _; rfl
  | cons c t ih =>
    intro h
    have hc : c.toNat < 0x80 := h c (by simp)
    simp only [List.map_cons, List.flatten_cons, charUtf8Bytes, if_pos hc,
      ih (fun d hd => h d (by simp [hd]))]
    rfl

/-! ### Claim theorems -/

/-- C2: on printable-ASCII input the checksum function computes exactly the
CRC-16/CCITT-FALSE register (polynomial 0x1021, initial value 0xFFFF,
MSB-first) of the input's bytes, which are the character codes, rendered as
exactly four lowercase hexadecimal digits zero-padded on the left; on the
standard check input "123456789" it returns "29b1". -/
theorem crc16_hex_matches_ccitt_false (s : String)
    (hascii : ∀ c ∈ s.data, 0x20 ≤ c.toNat ∧ c.toNat ≤ 0x7E) :
    utf8Bytes s = s.data.map Char.toNat
    ∧ crc16 (utf8Bytes s) = crc16Ref (s.data.map Char.toNat)
    ∧ crc16CcittFalseHexLower s
        = String.mk (padStart4 (natToHex (crc16Ref (s.data.map Char.toNat))))
    ∧ (crc16CcittFalseHexLower s).data.length = 4
    ∧ (∀ c ∈ (crc16CcittFalseHexLower s).data, isLowerHexDigit c = true)
    ∧ crc16CcittFalseHexLower "123456789" = "29b1" := by
  have hb : utf8Bytes s = s.data.map Char.toNat :=
    utf8Bytes_of_ascii s.data (fun c hc => by have := hascii c hc; omega)
  have hlen : (natToHex (crc16 (utf8Bytes s))).length ≤ 4 :=
    natToHex_length_le _ (crc16_lt _)
  refine ⟨hb, ?_, ?_, ?_, ?_, by decide⟩
  · rw [hb, crc16_eq_ref]
  · unfold crc16CcittFalseHexLower
    rw [hb, crc16_eq_ref]
  · show (padStart4 (natToHex (crc16 (utf8Bytes s)))).length = 4
    unfold padStart4
    simp only [List.length_append, List.length_replicate]
    omega
  · intro c hc
    have hc' : c ∈ padStart4 (natToHex (crc16 (utf8Bytes s))) := hc
    unfold padStart4 at hc'
    rcases List.mem_append.mp hc' with hm | hm
    · have : c = '0' := List.eq_of_mem_replicate hm
      subst this
      decide
    · exact natToHexAux_hex _ _ c hm

/-- C2 witness: the theorem applied to the standard check input. -/
theorem crc16_hex_matches_ccitt_false_witness :
    crc16CcittFalseHexLower "123456789" = "29b1"
    ∧ (crc16CcittFalseHexLower "123456789").data.length = 4 := by
  have h := crc16_hex_matches_ccitt_false "123456789" (by decide)
  exact ⟨h.2.2.2.2.2, h.2.2.2.1⟩

/-- C3: the TLV encoder emits tag, then the grapheme-cluster count of the
value in decimal zero-padded to at least two digits, then the value; the
Vietnamese note "Xin chào Việt Nam" counts 17 grapheme clusters, less than
its 20 UTF-8 bytes, and a decomposed "à" shows the count is not the UTF-16
code-unit count either. -/
theorem tlv_grapheme_length (tag value : String) (h : isTwoDigitTag tag = true) :
    tlv tag value = .ok (tag ++ pad2OrMore (graphemeLength value) ++ value)
    ∧ tlv "08" "Xin chào Việt Nam" = .ok ("08" ++ "17" ++ "Xin chào Việt Nam")
    ∧ graphemeLength "Xin chào Việt Nam" = 17
    ∧ utf8Length "Xin chào Việt Nam" = 20
    ∧ graphemeLength "Xin chào Việt Nam" < utf8Length "Xin chào Việt Nam"
    ∧ utf16Length "à" = 2 ∧ graphemeLength "à" = 1 :=
  ⟨by simp [tlv, h, tlvStr], by decide, by decide, by decide, by decide, by decide, by decide⟩

/-- C3 witness: the theorem applied to tag 08 and the empty note. -/
theorem tlv_grapheme_length_witness : tlv "08" "" = Except.ok "0800" := by
  have h := (tlv_grapheme_length "08" "" (by decide)).1
  rw [h]
  decide

/-- C8: "vcb", "VCB" and "Vietcombank" all resolve to the Vietcombank record
with identifier 970436, and "UnknownBank123" fails with the unknown-bank
error. -/
theorem resolveBankBin_vcb_and_unknown :
    resolveBankBin "vcb" = .ok vcbBank
    ∧ resolveBankBin "VCB" = .ok vcbBank
    ∧ resolveBankBin "Vietcombank" = .ok vcbBank
    ∧ vcbBank.bin = "970436"
    ∧ resolveBankBin "UnknownBank123" = .error (unknownBankMessage "UnknownBank123") :=
  ⟨by decide, by decide, by decide, rfl, by decide⟩

/-- C10 counterexample: a short code followed by one punctuation character
does not normalize to the bare code's key (the trim happens before the
collapse, leaving a trailing space) and does not resolve: "VCB." fails with
the unknown-bank error instead of resolving to the Vietcombank record. -/
theorem normalizeBankKey_trailing_punct_counterexample :
    normalizeBankKey "VCB." ≠ normalizeBankKey "VCB"
    ∧ resolveBankBin "VCB." = .error (unknownBankMessage "VCB.")
    ∧ resolveBankBin "VCB." ≠ .ok vcbBank :=
  ⟨by decide, by decide, by decide⟩

/-- C10 amended: normalization trims first and only then lowercases, strips
combining marks after decomposition and collapses non-alphanumeric runs to
single spaces, without a final trim; hence appending one punctuation
character to a short code appends a trailing space to its key, and such a
query can fail to resolve: "VCB." yields key "vcb " and the unknown-bank
error. -/
theorem normalizeBankKey_no_final_trim :
    (∀ b ∈ BANKS, normalizeBankKey (b.code ++ ".") = normalizeBankKey b.code ++ " ")
    ∧ normalizeBankKey "VCB" = "vcb"
    ∧ normalizeBankKey "VCB." = "vcb "
    ∧ resolveBankBin "VCB." = .error (unknownBankMessage "VCB.") :=
  ⟨by decide, by decide, by decide, by decide⟩

/-- C10 witness: the amended theorem applied to the Vietcombank record. -/
theorem normalizeBankKey_no_final_trim_witness :
    normalizeBankKey ("VCB" ++ ".") = normalizeBankKey "VCB" ++ " " :=
  normalizeBankKey_no_final_trim.1 vcbBank (by decide)

theorem splitGo_getElem? (base : Int) : ∀ (ps : List String) (rem : Int) (i : Nat),
    (splitGo base rem ps)[i]? =
      ps[i]?.map (fun p => (p, base + if (i : Int) < rem then 1 else 0)) := by
  intro ps
  induction ps with
  | nil => intro rem i; simp [splitGo]
  | cons p t ih =>
    intro rem i
    cases i with
    | zero => simp [splitGo]
    | succ j =>
      simp only [splitGo, List.getElem?_cons_succ, ih (rem - 1) j]
      have hiff : ((j : Int) < rem - 1) = (((j + 1 : Nat) : Int) < rem) := by
        apply propext
        push_cast
        omega
      simp only [hiff]

theorem splitGo_sum_nonpos (base : Int) : ∀ (ps : List String) (rem : Int), rem ≤ 0 →
    ((splitGo base rem ps).map Prod.snd).sum = ps.length * base := by
  intro ps
  induction ps with
  | nil => intro rem _; simp [splitGo]
  | cons p t ih =>
    intro rem h
    have hnr : ¬ (0 < rem) := by omega
    simp only [splitGo, List.map_cons, List.sum_cons, if_neg hnr, ih (rem - 1) (by omega),
      List.length_cons]
    push_cast
    ring

theorem splitGo_sum (base : Int) : ∀ (ps : List String) (rem : Int),
    0 ≤ rem → rem ≤ (ps.length : Int) →
    ((splitGo base rem ps).map Prod.snd).sum = ps.length * base + rem := by
  intro ps
  induction ps with
  | nil =>
    intro rem h0 h1
    simp only [List.length_nil, Nat.cast_zero] at h1
    simp [splitGo]
    omega
  | cons p t ih =>
    intro rem h0 h1
    simp only [List.length_cons] at h1
    by_cases hr : 0 < rem
    · simp only [splitGo, List.map_cons, List.sum_cons, if_pos hr,
        ih (rem - 1) (by omega) (by push_cast at h1 ⊢; omega), List.length_cons]
      push_cast
      ring
    · have h00 : rem = 0 := by omega
      subst h00
      simp only [splitGo, List.map_cons, List.sum_cons, if_neg hr,
        splitGo_sum_nonpos base t (0 - 1) (by omega), List.length_cons]
      push_cast
      ring

/-- C6: for a non-negative total and a non-empty payer list, `splitEvenly`
gives each position the floor of total over the count plus one extra unit
exactly on the first remainder-many positions, the shares sum to the total,
and the two concrete examples of the specification hold. -/
theorem splitEvenly_distributes (total : Int) (payers : List String)
    (htot : 0 ≤ total) (hne : payers ≠ []) (hnd : payers.Nodup) :
    (∀ i : Nat, (splitEvenly total payers)[i]? =
      payers[i]?.map (fun p => (p,
        total.fdiv payers.length +
          if (i : Int) < total - total.fdiv payers.length * payers.length then 1 else 0)))
    ∧ ((splitEvenly total payers).map Prod.snd).sum = total
    ∧ splitEvenly 1001 ["Alice", "Bob"] = [("Alice", 501), ("Bob", 500)]
    ∧ splitEvenly 10 ["A", "B", "C"] = [("A", 4), ("B", 3), ("C", 3)] := by
  have hlen0 : payers.length ≠ 0 := fun h => hne (List.eq_nil_of_length_eq_zero h)
  have hlen : 1 ≤ (payers.length : Int) := by omega
  have hmax : max 1 (payers.length : Int) = (payers.length : Int) := max_eq_right hlen
  have hfd : total.fdiv (payers.length : Int) = total / (payers.length : Int) :=
    Int.fdiv_eq_ediv _ (by omega)
  refine ⟨?_, ?_, by decide, by decide⟩
  · intro i
    simp only [splitEvenly, hmax]
    exact splitGo_getElem? _ _ _ _
  · simp only [splitEvenly, hmax]
    have hde := Int.ediv_add_emod total (payers.length : Int)
    have hnn := Int.emod_nonneg total (show (payers.length : Int) ≠ 0 by omega)
    have hlt := Int.emod_lt_of_pos total (show (0 : Int) < (payers.length : Int) by omega)
    have hrem : total - total.fdiv (payers.length : Int) * (payers.length : Int)
        = total % (payers.length : Int) := by
      rw [hfd]
      linarith [mul_comm (total / (payers.length : Int)) (payers.length : Int)]
    rw [splitGo_sum _ _ _ (by rw [hrem]; exact hnn) (by rw [hrem]; omega)]
    ring

/-- C6 witness: the theorem applied to total 10 and three payers. -/
theorem splitEvenly_distributes_witness :
    ((splitEvenly 10 ["A", "B", "C"]).map Prod.snd).sum = 10 :=
  (splitEvenly_distributes 10 ["A", "B", "C"] (by decide) (by decide) (by decide)).2.1

/-- C5: with a nonzero items subtotal and at least one payer, the totals are
the clamped preliminary totals (subtotal plus rounded proportional extras
share) with the whole signed rounding difference added to the first payer,
so they sum exactly to the grand total; in the two-payer example with equal
subtotals 1000 and extras net 1 the result is Alice 1000, Bob 1001, and the
sum is exactly 2001. -/
theorem computePayerTotals_correction (shared : Option SharedBill) (config : SplitConfig)
    (p0 : String) (rest : List String) (hp : config.payers = p0 :: rest)
    (hnd : config.payers.Nodup) (hsub : computeItemsSubtotal shared ≠ 0) :
    computePayerTotals shared config =
      (p0, prelimPayerTotal shared config p0 + roundingDiff shared config)
        :: rest.map (fun p => (p, prelimPayerTotal shared config p))
    ∧ ((computePayerTotals shared config).map Prod.snd).sum
        = computeItemsSubtotal shared + computeExtrasNet shared
    ∧ computePayerTotals
        (some { items := [{ id := "i1", name := "Pizza", qty := 2, unitPrice := 1000 }],
                extras := some { tax := some 1, tip := none, discount := none } })
        { mode := .even, payers := ["Alice", "Bob"], assignments := none }
        = [("Alice", 1000), ("Bob", 1001)]
    ∧ ((computePayerTotals
        (some { items := [{ id := "i1", name := "Pizza", qty := 2, unitPrice := 1000 }],
                extras := some { tax := some 1, tip := none, discount := none } })
        { mode := .even, payers := ["Alice", "Bob"], assignments := none }).map
          Prod.snd).sum = 2001 := by
  have hstruct : computePayerTotals shared config =
      (p0, prelimPayerTotal shared config p0 + roundingDiff shared config)
        :: rest.map (fun p => (p, prelimPayerTotal shared config p)) := by
    simp only [computePayerTotals, hp, if_neg hsub, prelimPayerTotal, roundingDiff]
    rfl
  refine ⟨hstruct, ?_, by decide, by decide⟩
  rw [hstruct]
  simp only [List.map_cons, List.sum_cons, List.map_map]
  have hcomp : (Prod.snd ∘ fun p => (p, prelimPayerTotal shared config p))
      = prelimPayerTotal shared config := rfl
  rw [hcomp]
  unfold roundingDiff
  rw [hp]
  simp only [List.map_cons, List.sum_cons]
  ring

/-- C5 witness: the theorem applied to the two-payer example bill. -/
theorem computePayerTotals_correction_witness :
    ((computePayerTotals
        (some { items := [{ id := "i1", name := "Pizza", qty := 2, unitPrice := 1000 }],
                extras := some { tax := some 1, tip := none, discount := none } })
        { mode := .even, payers := ["Alice", "Bob"], assignments := none }).map
          Prod.snd).sum = 2001 :=
  (computePayerTotals_correction
    (some { items := [{ id := "i1", name := "Pizza", qty := 2, unitPrice := 1000 }],
            extras := some { tax := some 1, tip := none, discount := none } })
    { mode := .even, payers := ["Alice", "Bob"], assignments := none }
    "Alice" ["Bob"] rfl (by decide) (by decide)).2.2.2

/-- C7: decoding rejects every packed tuple whose version tag differs from 1
with the unsupported-schema-version error, and every successful decode
returns a payload whose version is exactly 1. -/
theorem unpack_version_guard :
    (∀ p : PackedPayload, p.v ≠ 1 →
      unpack p = .error ("Unsupported schema version: " ++ toString p.v))
    ∧ (∀ (mdec : List Nat → Option PackedPayload) (token : String)
        (bytes : List Nat) (packed : PackedPayload),
        base64urlDecode token = some bytes → mdec bytes = some packed → packed.v ≠ 1 →
        decodeFromUrlWith mdec token
          = .error ("Unsupported schema version: " ++ toString packed.v))
    ∧ (∀ (mdec : List Nat → Option PackedPayload) (token : String)
        (payload : SharedBillPayload),
        decodeFromUrlWith mdec token = .ok payload → payload.v = 1) := by
  refine ⟨?_, ?_, ?_⟩
  · intro p hv
    simp [unpack, hv]
  · intro mdec token bytes packed hb hm hv
    simp [decodeFromUrlWith, hb, hm, unpack, hv]
  · intro mdec token payload h
    unfold decodeFromUrlWith at h
    split at h
    · exact absurd h (by simp)
    · split at h
      · exact absurd h (by simp)
      · unfold unpack at h
        split at h
        · exact absurd h (by simp)
        · have h' := Except.ok.inj h
          rw [← h']

/-- C7 witness: the theorem applied to a packed tuple with version 2. -/
theorem unpack_version_guard_witness :
    unpack { v := 2, billName := "Future Bill", countryCode := "VN", currencyNumeric := 704,
             owner := ("VCB", "123"), items := [("x", "Item", 1, 1)], extras := none }
      = .error "Unsupported schema version: 2" := by
  have h := unpack_version_guard.1
    { v := 2, billName := "Future Bill", countryCode := "VN", currencyNumeric := 704,
      owner := ("VCB", "123"), items := [("x", "Item", 1, 1)], extras := none }
    (by decide)
  rw [h]
  decide

/-- C9: the config parser returns null on every failing input (absent or
empty parameter, failed decompression, failed JSON parse, non-object
document) instead of propagating an error, and on a decoded object it keeps
only non-blank string payers, replaces non-array assignment values by an
empty array, and keeps only non-blank string entries inside each assignment
array. -/
theorem safeParseConfig_lenient (decompress : String → Option String)
    (parseJson : String → Option Json) :
    safeParseConfig decompress parseJson none = none
    ∧ safeParseConfig decompress parseJson (some "") = none
    ∧ (∀ s, decompress s = none → safeParseConfig decompress parseJson (some s) = none)
    ∧ (∀ s j, decompress s = some j → parseJson j = none →
        safeParseConfig decompress parseJson (some s) = none)
    ∧ (∀ s j v, decompress s = some j → parseJson j = some v →
        (jsFalsy v = true ∨ jsIsObjectType v = false) →
        safeParseConfig decompress parseJson (some s) = none)
    ∧ (∀ s j fields, s ≠ "" → j ≠ "" → decompress s = some j →
        parseJson j = some (.obj fields) →
        safeParseConfig decompress parseJson (some s) = some
          { mode := match fields.lookup "mode" with
              | some (.str "even") => .even
              | _ => .individual
            payers := match fields.lookup "payers" with
              | some (.arr elems) => keptStrings elems
              | _ => []
            assignments := match fields.lookup "assignments" with
              | none => none
              | some a =>
                if !(jsFalsy a) && jsIsObjectType a then
                  some ((jsEntries a).map (fun kv =>
                    (kv.1, match kv.2 with
                      | .arr elems => keptStrings elems
                      | _ => [])))
                else none }) := by
  refine ⟨rfl, rfl, ?_, ?_, ?_, ?_⟩
  · intro s hd
    by_cases hs : s = ""
    · subst hs; rfl
    · simp [safeParseConfig, hs, hd]
  · intro s j hd hp
    by_cases hs : s = ""
    · subst hs; rfl
    · by_cases hj : j = ""
      · subst hj; simp [safeParseConfig, hs, hd]
      · simp [safeParseConfig, hs, hd, hj, hp]
  · intro s j v hd hp hbad
    by_cases hs : s = ""
    · subst hs; rfl
    · by_cases hj : j = ""
      · subst hj; simp [safeParseConfig, hs, hd]
      · have hcond : (jsFalsy v || !jsIsObjectType v) = true := by
          rcases hbad with hb | hb <;> simp [hb]
        simp [safeParseConfig, hs, hd, hj, hp, hcond]
  · intro s j fields hs hj hd hp
    simp [safeParseConfig, hs, hd, hj, hp, getField]
    exact ⟨rfl, rfl⟩

/-- C9 witness: the theorem applied to a concrete decodable object with a
blank payer, a non-string payer, a non-string assignment entry and a
non-array assignment value. -/
theorem safeParseConfig_lenient_witness :
    safeParseConfig (fun _ => some "j")
      (fun _ => some (.obj [("mode", .str "even"),
        ("payers", .arr [.str "Al", .str " ", .num 3, .str "Bo"]),
        ("assignments", .obj [("i1", .arr [.str "Al", .bool true]), ("i2", .str "x")])]))
      (some "tok")
      = some { mode := .even, payers := ["Al", "Bo"],
               assignments := some [("i1", ["Al"]), ("i2", [])] } := by
  have h := (safeParseConfig_lenient (fun _ => some "j")
      (fun _ => some (.obj [("mode", .str "even"),
        ("payers", .arr [.str "Al", .str " ", .num 3, .str "Bo"]),
        ("assignments", .obj [("i1", .arr [.str "Al", .bool true]), ("i2", .str "x")])]))).2.2.2.2.2
      "tok" "j"
      [("mode", .str "even"),
        ("payers", .arr [.str "Al", .str " ", .num 3, .str "Bo"]),
        ("assignments", .obj [("i1", .arr [.str "Al", .bool true]), ("i2", .str "x")])]
      (by decide) (by decide) rfl rfl
  rw [h]
  decide

theorem except_bind_ok {ε α β : Type} (a : α) (f : α → Except ε β) :
    (Except.ok a : Except ε α) >>= f = f a := rfl

theorem orElse_some_cases {α : Type} {o : Option α} {f : Unit → Option α} {b : α}
    (h : o.orElse f = some b) : o = some b ∨ f () = some b := by
  cases o with
  | none => right; simpa [Option.orElse] using h
  | some a => left; simpa [Option.orElse] using h

theorem resolveBankBin_mem {s : String} {b : Bank} (h : resolveBankBin s = .ok b) :
    b ∈ BANKS := by
  unfold resolveBankBin at h
  dsimp only [] at h
  split at h
  · rename_i bb heq
    have hbb := Except.ok.inj h
    subst hbb
    rcases orElse_some_cases heq with h1 | h1
    · rcases orElse_some_cases h1 with h2 | h2
      · rcases orElse_some_cases h2 with h3 | h3
        · exact List.mem_of_find?_eq_some h3
        · exact List.mem_of_find?_eq_some h3
      · exact List.mem_of_find?_eq_some h2
    · exact List.mem_of_find?_eq_some h1
  · exact absurd h (by simp)

theorem BANKS_bins_six : ∀ b ∈ BANKS, isSixDigitBin b.bin = true := by decide

theorem buildQrReceiveAccount_ok (bankBin acct : String)
    (hbin : isSixDigitBin bankBin = true)
    (hne : (jsTrim acct).data.isEmpty = false)
    (hdig : isAllDigits (jsTrim acct) = true) :
    buildQrReceiveAccount bankBin acct = .ok
      (tlvStr "00" "A000000727" ++
        tlvStr "01" (tlvStr "00" bankBin ++ tlvStr "01" (jsTrim acct) ++
          tlvStr "02" "QRIBFTTA")) := by
  unfold buildQrReceiveAccount
  rw [hbin]
  simp only [Bool.not_true, Bool.false_eq_true, if_false]
  rw [hne, hdig]
  rfl

/-- C1: whenever the bank query resolves and the account number passes
validation, the generated payload is exactly the fixed TLV concatenation
(tags 00 = "01", 01 = "12", 38 = merchant block, 53 = "704", 54 = the amount
as supplied, 58 = the country code as supplied with default "VN", 62 = one
inner tag 08 with the note or the empty string) followed by "6304" and the
four lowercase hexadecimal checksum digits computed over everything
preceding them including that "6304"; with no note the inner entry of tag 62
is literally "0800". -/
theorem generateQrEmvPayload_structure (input : BankInput) (bank : Bank)
    (hbank : resolveBankBin input.bank = .ok bank)
    (hne : (jsTrim input.accountNumber).data.isEmpty = false)
    (hdig : isAllDigits (jsTrim input.accountNumber) = true) :
    generateQrEmvPayload input = .ok (qrPayloadText input bank, bank)
    ∧ (input.note = none → tlvStr "08" (input.note.getD "") = "0800") := by
  have hmem := resolveBankBin_mem hbank
  have hbin : isSixDigitBin bank.bin = true := BANKS_bins_six bank hmem
  have hacct := buildQrReceiveAccount_ok bank.bin input.accountNumber hbin hne hdig
  constructor
  · unfold generateQrEmvPayload
    rw [hbank]
    simp only [except_bind_ok]
    rw [hacct]
    simp only [except_bind_ok]
    rfl
  · intro hnote
    rw [hnote]
    rfl

/-- C1 witness: the theorem applied to a concrete request (bank "VCB",
account "123", amount "1000", no note, no country code). -/
theorem generateQrEmvPayload_structure_witness :
    generateQrEmvPayload
      { bank := "VCB", accountNumber := "123", amount := "1000" }
      = .ok (qrPayloadText
        { bank := "VCB", accountNumber := "123", amount := "1000" } vcbBank, vcbBank) :=
  (generateQrEmvPayload_structure
    { bank := "VCB", accountNumber := "123", amount := "1000" }
    vcbBank (by decide) (by decide) (by decide)).1

theorem threeChunks {P : List Nat → Prop} (h0 : P []) (h1 : ∀ b0, P [b0])
    (h2 : ∀ b0 b1, P [b0, b1])
    (h3 : ∀ b0 b1 b2 rest, P rest → P (b0 :: b1 :: b2 :: rest)) : ∀ l, P l
  | [] => h0
  | [b0] => h1 b0
  | [b0, b1] => h2 b0 b1
  | b0 :: b1 :: b2 :: rest => h3 b0 b1 b2 rest (threeChunks h0 h1 h2 h3 rest)

theorem b64Alphabet_ne_eq : ∀ c ∈ b64Alphabet, c ≠ '=' := by decide

theorem b64Char_mem (i : Nat) : b64Char i ∈ b64Alphabet := by
  unfold b64Char
  rw [List.getD_eq_getElem?_getD]
  rcases h : b64Alphabet[i]? with _ | c
  · decide
  · simpa using List.getElem?_mem h

theorem b64Char_ne_eq (i : Nat) : b64Char i ≠ '=' :=
  b64Alphabet_ne_eq _ (b64Char_mem i)

theorem b64Char_beq_eq_false (i : Nat) : (b64Char i == '=') = false := by
  simpa using b64Char_ne_eq i

theorem b64Index_b64Char : ∀ i < 64, b64Index (b64Char i) = some i := by decide

theorem unsub_sub_alphabet : ∀ c ∈ b64Alphabet, unsubUrl (subUrl c) = c := by decide

theorem unsub_sub_b64Char (i : Nat) : unsubUrl (subUrl (b64Char i)) = b64Char i :=
  unsub_sub_alphabet _ (b64Char_mem i)

theorem subUrl_beq_eq (c : Char) : (subUrl c == '=') = (c == '=') := by
  unfold subUrl
  by_cases h1 : (c == '+') = true
  · rw [if_pos h1]
    have hc : c = '+' := by simpa using h1
    subst hc
    decide
  · rw [if_neg h1]
    by_cases h2 : (c == '/') = true
    · rw [if_pos h2]
      have hc : c = '/' := by simpa using h2
      subst hc
      decide
    · rw [if_neg h2]

theorem b64EncodeGroups_chars : ∀ (bytes : List Nat), ∀ c ∈ b64EncodeGroups bytes,
    (∃ i, c = b64Char i) ∨ c = '=' := by
  apply threeChunks
  · intro c hc
    simp [b64EncodeGroups] at hc
  · intro b0 c hc
    simp only [b64EncodeGroups, List.mem_cons, List.not_mem_nil, or_false] at hc
    rcases hc with h | h | h | h
    · exact .inl ⟨_, h⟩
    · exact .inl ⟨_, h⟩
    · exact .inr h
    · exact .inr h
  · intro b0 b1 c hc
    simp only [b64EncodeGroups, List.mem_cons, List.not_mem_nil, or_false] at hc
    rcases hc with h | h | h | h
    · exact .inl ⟨_, h⟩
    · exact .inl ⟨_, h⟩
    · exact .inl ⟨_, h⟩
    · exact .inr h
  · intro b0 b1 b2 rest ih c hc
    simp only [b64EncodeGroups, List.mem_cons] at hc
    rcases hc with h | h | h | h | h
    · exact .inl ⟨_, h⟩
    · exact .inl ⟨_, h⟩
    · exact .inl ⟨_, h⟩
    · exact .inl ⟨_, h⟩
    · exact ih c h

theorem stripTrailingEq_subset (l : List Char) : ∀ c ∈ stripTrailingEq l, c ∈ l := by
  intro c hc
  unfold stripTrailingEq at hc
  rw [List.mem_reverse] at hc
  have h2 := (List.dropWhile_sublist (l := l.reverse) (p := fun c => c == '=')).subset hc
  exact List.mem_reverse.mp h2

theorem stripTrailingEq_map_subUrl (l : List Char) :
    stripTrailingEq (l.map subUrl) = (stripTrailingEq l).map subUrl := by
  unfold stripTrailingEq
  rw [← List.map_reverse, List.dropWhile_map, ← List.map_reverse]
  have hfun : ((fun c => c == '=') ∘ subUrl) = (fun c : Char => c == '=') := by
    funext c
    simp [Function.comp, subUrl_beq_eq]
  rw [hfun]

theorem stripTrailingEq_ne_nil {l : List Char} {c : Char} (hc : c ∈ l) (hne : c ≠ '=') :
    stripTrailingEq l ≠ [] := by
  unfold stripTrailingEq
  intro h
  rw [List.reverse_eq_nil_iff, List.dropWhile_eq_nil_iff] at h
  have := h c (List.mem_reverse.mpr hc)
  simp at this
  exact hne this

theorem stripTrailingEq_append {g l : List Char} (h : stripTrailingEq l ≠ []) :
    stripTrailingEq (g ++ l) = g ++ stripTrailingEq l := by
  unfold stripTrailingEq at *
  rw [List.reverse_append, List.dropWhile_append]
  rw [if_neg ?hcond]
  case hcond =>
    intro hemp
    apply h
    rw [List.isEmpty_iff] at hemp
    rw [hemp]
    rfl
  rw [List.reverse_append, List.reverse_reverse]

theorem stripTrailingEq_append_eq (l : List Char) :
    stripTrailingEq (l ++ ['=']) = stripTrailingEq l := by
  unfold stripTrailingEq
  rw [List.reverse_append]
  simp [List.dropWhile_cons]

theorem stripTrailingEq_append_ne (l : List Char) {c : Char} (h : (c == '=') = false) :
    stripTrailingEq (l ++ [c]) = l ++ [c] := by
  unfold stripTrailingEq
  rw [List.reverse_append]
  simp [List.dropWhile_cons, h]

theorem b64EncodeGroups_head (b0 : Nat) (bs : List Nat) :
    ∃ cs, b64EncodeGroups (b0 :: bs) = b64Char (b0 / 4) :: cs := by
  match bs with
  | [] => exact ⟨_, rfl⟩
  | [b1] => exact ⟨_, rfl⟩
  | b1 :: b2 :: rest => exact ⟨_, rfl⟩

theorem pad_strip : ∀ (bytes : List Nat),
    stripTrailingEq (b64EncodeGroups bytes) ++
      List.replicate ((4 - (stripTrailingEq (b64EncodeGroups bytes)).length % 4) % 4) '='
      = b64EncodeGroups bytes := by
  apply threeChunks
  · rfl
  · intro b0
    simp only [b64EncodeGroups]
    have h1 : ([b64Char (b0 / 4), b64Char (b0 % 4 * 16), '=', '='] : List Char)
        = (([b64Char (b0 / 4)] ++ [b64Char (b0 % 4 * 16)]) ++ ['=']) ++ ['='] := by simp
    rw [h1, stripTrailingEq_append_eq, stripTrailingEq_append_eq,
      stripTrailingEq_append_ne _ (b64Char_beq_eq_false _)]
    simp [List.replicate]
  · intro b0 b1
    simp only [b64EncodeGroups]
    have h1 : ([b64Char (b0 / 4), b64Char (b0 % 4 * 16 + b1 / 16), b64Char (b1 % 16 * 4), '=']
          : List Char)
        = (([b64Char (b0 / 4), b64Char (b0 % 4 * 16 + b1 / 16)]
            ++ [b64Char (b1 % 16 * 4)]) ++ ['=']) := by simp
    rw [h1, stripTrailingEq_append_eq,
      stripTrailingEq_append_ne _ (b64Char_beq_eq_false _)]
    simp [List.replicate]
  · intro b0 b1 b2 rest ih
    by_cases hr : rest = []
    · subst hr
      simp only [b64EncodeGroups]
      have h1 : ([b64Char (b0 / 4), b64Char (b0 % 4 * 16 + b1 / 16),
            b64Char (b1 % 16 * 4 + b2 / 64), b64Char (b2 % 64)] : List Char)
          = ([b64Char (b0 / 4), b64Char (b0 % 4 * 16 + b1 / 16),
            b64Char (b1 % 16 * 4 + b2 / 64)] ++ [b64Char (b2 % 64)]) := by simp
      rw [h1, stripTrailingEq_append_ne _ (b64Char_beq_eq_false _)]
      simp [List.replicate]
    · obtain ⟨r0, rtail, hr0⟩ := List.exists_cons_of_ne_nil hr
      subst hr0
      obtain ⟨cs, hcs⟩ := b64EncodeGroups_head r0 rtail
      have hne : stripTrailingEq (b64EncodeGroups (r0 :: rtail)) ≠ [] := by
        rw [hcs]
        exact stripTrailingEq_ne_nil (List.mem_cons_self _ _) (b64Char_ne_eq _)
      have hE : b64EncodeGroups (b0 :: b1 :: b2 :: r0 :: rtail)
          = [b64Char (b0 / 4), b64Char (b0 % 4 * 16 + b1 / 16),
             b64Char (b1 % 16 * 4 + b2 / 64), b64Char (b2 % 64)]
            ++ b64EncodeGroups (r0 :: rtail) := rfl
      rw [hE, stripTrailingEq_append hne]
      have hlen : ((4 - ([b64Char (b0 / 4), b64Char (b0 % 4 * 16 + b1 / 16),
            b64Char (b1 % 16 * 4 + b2 / 64), b64Char (b2 % 64)]
            ++ stripTrailingEq (b64EncodeGroups (r0 :: rtail))).length % 4) % 4)
          = ((4 - (stripTrailingEq (b64EncodeGroups (r0 :: rtail))).length % 4) % 4) := by
        simp only [List.length_append, List.length_cons, List.length_nil]
        omega
      rw [hlen, List.append_assoc, ih]

theorem option_some_bind {α β : Type} (a : α) (f : α → Option β) :
    (some a >>= f) = f a := rfl

theorem option_pure {α : Type} (a : α) : (pure a : Option α) = some a := rfl

theorem b64DecodeGroups_encode : ∀ (bytes : List Nat), (∀ x ∈ bytes, x < 256) →
    b64DecodeGroups (b64EncodeGroups bytes) = some bytes := by
  apply threeChunks (P := fun l => (∀ x ∈ l, x < 256) →
    b64DecodeGroups (b64EncodeGroups l) = some l)
  · intro _
    rfl
  · intro b0 h
    have hb0 : b0 < 256 := h b0 (by simp)
    have e0 := b64Index_b64Char (b0 / 4) (by omega)
    have e1 := b64Index_b64Char (b0 % 4 * 16) (by omega)
    simp only [b64EncodeGroups, b64DecodeGroups, beq_self_eq_true, List.isEmpty_nil,
      Bool.and_self, Bool.true_and, Bool.and_true, if_true, e0, e1, option_some_bind,
      option_pure]
    simp only [Option.some.injEq, List.cons.injEq, and_true]
    omega
  · intro b0 b1 h
    have hb0 : b0 < 256 := h b0 (by simp)
    have hb1 : b1 < 256 := h b1 (by simp)
    have e0 := b64Index_b64Char (b0 / 4) (by omega)
    have e1 := b64Index_b64Char (b0 % 4 * 16 + b1 / 16) (by omega)
    have e2 := b64Index_b64Char (b1 % 16 * 4) (by omega)
    simp only [b64EncodeGroups, b64DecodeGroups, beq_self_eq_true, List.isEmpty_nil,
      Bool.and_self, Bool.true_and, Bool.and_true, b64Char_beq_eq_false, Bool.false_and,
      Bool.and_false, Bool.false_eq_true, if_false, if_true, e0, e1, e2, option_some_bind,
      option_pure]
    simp only [Option.some.injEq, List.cons.injEq, and_true]
    omega
  · intro b0 b1 b2 rest ih h
    have hb0 : b0 < 256 := h b0 (by simp)
    have hb1 : b1 < 256 := h b1 (by simp)
    have hb2 : b2 < 256 := h b2 (by simp)
    have e0 := b64Index_b64Char (b0 / 4) (by omega)
    have e1 := b64Index_b64Char (b0 % 4 * 16 + b1 / 16) (by omega)
    have e2 := b64Index_b64Char (b1 % 16 * 4 + b2 / 64) (by omega)
    have e3 := b64Index_b64Char (b2 % 64) (by omega)
    have htail := ih (fun x hx => h x (by simp [hx]))
    simp only [b64EncodeGroups, b64DecodeGroups, b64Char_beq_eq_false, Bool.false_and,
      Bool.false_eq_true, if_false, e0, e1, e2, e3, htail, option_some_bind, option_pure]
    simp only [Option.some.injEq, List.cons.injEq]
    refine ⟨by omega, by omega, by omega, trivial⟩

theorem base64url_roundtrip (bytes : List Nat) (h : ∀ x ∈ bytes, x < 256) :
    base64urlDecode (base64urlEncode bytes) = some bytes := by
  unfold base64urlEncode base64urlDecode
  dsimp only []
  rw [stripTrailingEq_map_subUrl, List.map_map]
  have hid : (stripTrailingEq (b64EncodeGroups bytes)).map (unsubUrl ∘ subUrl)
      = stripTrailingEq (b64EncodeGroups bytes) := by
    have hpt : ∀ c ∈ stripTrailingEq (b64EncodeGroups bytes), (unsubUrl ∘ subUrl) c = id c := by
      intro c hc
      have hcE := stripTrailingEq_subset _ c hc
      rcases b64EncodeGroups_chars bytes c hcE with ⟨i, hi⟩ | hi
      · subst hi
        exact unsub_sub_b64Char i
      · subst hi
        rfl
    rw [List.map_congr_left hpt, List.map_id]
  rw [hid, pad_strip bytes, b64DecodeGroups_encode bytes h]

theorem items_roundtrip : ∀ (items : List BillItem),
    (items.map (fun i => (i.id, i.name, i.qty, i.unitPrice))).map
      (fun x => ({ id := x.1, name := x.2.1, qty := x.2.2.1, unitPrice := x.2.2.2 } : BillItem))
      = items := by
  intro items
  induction items with
  | nil => rfl
  | cons i t ih =>
    cases i
    simp only [List.map_cons, ih]

theorem unpack_pack (p : SharedBillPayload) (hv : p.v = 1) (hcur : p.currencyNumeric = "704")
    (hextras : p.extras ≠ some { tax := none, tip := none, discount := none }) :
    unpack (pack p) = .ok p := by
  obtain ⟨v, billName, countryCode, currencyNumeric, ⟨obank, oacct⟩, items, extras⟩ := p
  subst hv
  subst hcur
  have hnum : toString (jsStringToNumber "704") = "704" := by decide
  rcases extras with _ | ⟨t, ti, d⟩
  · simp only [pack, unpack, hnum, items_roundtrip, Option.map_none']
    simp
  · have hnz : ¬ (t = none ∧ ti = none ∧ d = none) := by
      rintro ⟨h1, h2, h3⟩
      subst h1
      subst h2
      subst h3
      exact hextras rfl
    simp only [pack, unpack, hnum, items_roundtrip, Option.map_some', if_neg hnz]
    simp

/-- C4: for every valid shared-bill payload (schema version 1, currency code
"704", items with quantity at least 1, extras absent or with at least one key
set) and every serializer whose byte round trip is faithful on the packed
tuple, decoding the encoded URL token reproduces the payload exactly,
including the absence of the extras object and of unset extras keys. -/
theorem encodeForUrl_decodeFromUrl_roundtrip (p : SharedBillPayload)
    (hv : p.v = 1) (hcur : p.currencyNumeric = "704")
    (hextras : p.extras ≠ some { tax := none, tip := none, discount := none })
    (hitems : ∀ it ∈ p.items, 1 ≤ it.qty)
    (menc : PackedPayload → List Nat) (mdec : List Nat → Option PackedPayload)
    (hbytes : ∀ x ∈ menc (pack p), x < 256)
    (hround : mdec (menc (pack p)) = some (pack p)) :
    decodeFromUrlWith mdec (encodeForUrlWith menc p) = .ok p := by
  unfold encodeForUrlWith decodeFromUrlWith
  rw [base64url_roundtrip _ hbytes]
  dsimp only []
  rw [hround]
  dsimp only []
  exact unpack_pack p hv hcur hextras

/-- C4 witness: the theorem applied to a concrete payload whose extras hold
only a tip, with a serializer pair that is faithful on its packed tuple. -/
theorem encodeForUrl_decodeFromUrl_roundtrip_witness :
    decodeFromUrlWith
      (fun _ => some (pack { v := 1, billName := "Bill", countryCode := "VN", currencyNumeric := "704", owner := { bank := "VCB", accountNumber := "123" }, items := [{ id := "i1", name := "Coke", qty := 3, unitPrice := 25000 }], extras := some { tax := none, tip := some 50000, discount := none } }))
      (encodeForUrlWith (fun _ => [])
        { v := 1, billName := "Bill", countryCode := "VN", currencyNumeric := "704", owner := { bank := "VCB", accountNumber := "123" }, items := [{ id := "i1", name := "Coke", qty := 3, unitPrice := 25000 }], extras := some { tax := none, tip := some 50000, discount := none } })
      = .ok { v := 1, billName := "Bill", countryCode := "VN", currencyNumeric := "704", owner := { bank := "VCB", accountNumber := "123" }, items := [{ id := "i1", name := "Coke", qty := 3, unitPrice := 25000 }], extras := some { tax := none, tip := some 50000, discount := none } } :=
  encodeForUrl_decodeFromUrl_roundtrip _ rfl rfl (by decide) (by decide) _ _
    (by intro x hx; simp at hx) rfl

end BillSplit